import Mathlib

/-!
Verification of the SGA archive reader (relic.sga) against its
natural-language specification.

The Python source is shallowly embedded:
* a seekable binary stream becomes an explicit `ByteStream` record threaded
  through every operation;
* bytes are `List Nat` (each element < 256 on real inputs);
* Python exceptions become an `Err`-valued `Except`;
* external libraries with no source in the repository (zlib, hashlib.md5)
  become oracle function parameters.

Definitions are translated from `src/relic/sga/_abc.py`,
`src/relic/sga/_serializers.py` and the per-version `_serializers.py`
modules.  `relic.sga._core` (MagicWord, Version, StorageType,
VerificationType) is not present in the source tree; those few definitions
are modelled from the specification and are marked as such.
-/

deriving instance DecidableEq for Except

set_option maxRecDepth 8000

namespace SGA

/-- Python exceptions raised by the decoder, as one error type.
`MD5MismatchError` (raised only by `Md5ChecksumHelper.validate`) is the
checksum-validation failure; the other constructors cover struct packing
errors, dict/list access errors, codec errors and the reader's own typed
errors. -/
inductive Err where
  /-- The `relic.sga.errors.DecompressedSizeMismatch(actual, expected)`. -/
  | decompressedSizeMismatch (actual expected : Nat)
  /-- The `relic.sga.errors.MD5MismatchError` raised by `Md5ChecksumHelper.validate`. -/
  | md5Mismatch
  /-- Python `TypeError` (`"Data was not loaded!"`). -/
  | typeError
  /-- The `struct.error`: stream too short for the layout, or a value does not fit its field. -/
  | structError
  /-- Python `KeyError`: missing dict key (`names[name_pos]`, `INT2STORAGE[...]`). -/
  | keyError
  /-- Python `IndexError`: list index out of range (`local_folders[root_folder]`). -/
  | indexError
  /-- The `Exception("Ran out of data!")` in `read_toc_names_as_count`. -/
  | nameTableTruncated
  /-- The `UnicodeDecodeError` from `bytes.decode("ascii")`. -/
  | asciiError
  /-- The `zlib.error` from `zlib.decompress`. -/
  | zlibError
  /-- The `relic.errors.MismatchError` on the magic word. -/
  | magicMismatch
  /-- The `relic.sga.errors.VersionMismatchError`. -/
  | versionMismatch
  /-- The `relic.errors.MismatchError` on a reserved header field. -/
  | reservedMismatch
  /-- Python `ValueError` from an enum constructor on an invalid wire value. -/
  | valueError
  /-- The `Exception("API read files, but failed to create lazy info!")` in `load_lazy_data`. -/
  | apiError
  /-- Artifact of modelling an unbounded `while` loop with fuel; unreachable
  when the fuel exceeds the stream length (callers pass `data.length + 1`). -/
  | fuelExhausted
deriving DecidableEq, Repr

/-- A seekable binary stream (`BinaryIO`): the underlying bytes plus the
cursor.  Only the reading interface actually used by the decoder is
modelled. -/
structure ByteStream where
  data : List Nat
  pos : Nat
deriving DecidableEq, Repr, Inhabited

/-- The `stream.read(n)`: returns up to `n` bytes starting at the cursor and
advances the cursor by the number of bytes actually returned (a cursor past
the end reads zero bytes and stays put, as with `BytesIO`). -/
def ByteStream.read (s : ByteStream) (n : Nat) : List Nat × ByteStream :=
  let r := (s.data.drop s.pos).take n
  (r, { s with pos := s.pos + r.length })

/-- The `stream.seek(p)` (absolute). -/
def ByteStream.seek (s : ByteStream) (p : Nat) : ByteStream :=
  { s with pos := p }

/-- The `stream.tell()`. -/
def ByteStream.tell (s : ByteStream) : Nat :=
  s.pos

/-- The zlib inflate oracle: stands for `zlib.decompress`, whose source is
outside this repository.  `none` models `zlib.error`. -/
def Inflate : Type := List Nat → Option (List Nat)

/-- The `FileLazyInfo` from `relic/sga/_abc.py` (the stream reference is not
stored; it is threaded explicitly through `read`). -/
structure FileLazyInfo where
  jump_to : Nat
  packed_size : Nat
  unpacked_size : Nat
  decompress : Bool
deriving DecidableEq, Repr, Inhabited

/-- The `FileLazyInfo.read(decompress=None)` from `relic/sga/_abc.py` lines
35-45: save the cursor, seek to `jump_to`, read `packed_size` bytes,
inflate when the `decompress` flag (argument overriding the field) is set
and the packed size differs from the unpacked size, check the inflated
length, restore the cursor. -/
def FileLazyInfo.read (inflate : Inflate) (self : FileLazyInfo)
    (decompressArg : Option Bool) (stream : ByteStream) :
    Except Err (List Nat × ByteStream) :=
  let dec := decompressArg.getD self.decompress
  let jumpBack := stream.tell
  let s1 := stream.seek self.jump_to
  let (buffer, s2) := s1.read self.packed_size
  if dec = true ∧ self.packed_size ≠ self.unpacked_size then
    match inflate buffer with
    | none => .error .zlibError
    | some buffer2 =>
      if buffer2.length ≠ self.unpacked_size then
        .error (.decompressedSizeMismatch buffer2.length self.unpacked_size)
      else
        .ok (buffer2, s2.seek jumpBack)
  else
    .ok (buffer, s2.seek jumpBack)

/-- Modelled from the spec: `StorageType` (`relic.sga._core` is not in the
source tree) — "one of STORE, BUFFER_COMPRESS, STREAM_COMPRESS". -/
inductive StorageType where
  | STORE
  | BUFFER_COMPRESS
  | STREAM_COMPRESS
deriving DecidableEq, Repr, Inhabited

/-- The `File` from `relic/sga/_abc.py` (generic in the per-version file
metadata `μ`).  The `parent` back-reference is not a field here: Python
stores it by object identity, which the flat per-drive model
(`AsmDriveBundle` below) renders as an index-to-parent map instead. -/
structure SgaFile (μ : Type) where
  name : List Nat
  _data : Option (List Nat)
  storage_type : StorageType
  _is_compressed : Bool
  metadata : μ
  _lazy_info : Option FileLazyInfo
deriving DecidableEq, Repr

instance {μ : Type} [Inhabited μ] : Inhabited (SgaFile μ) :=
  ⟨⟨[], none, .STORE, false, default, none⟩⟩

/-- The `File.data` property getter from `relic/sga/_abc.py` lines 124-132:
cached bytes are returned as they are; otherwise the lazy handle is
resolved, its bytes cached and the handle dropped; with neither, a
`TypeError` is raised.  The (possibly mutated) file and stream are returned
alongside the bytes. -/
def SgaFile.dataGet {μ : Type} (inflate : Inflate) (f : SgaFile μ)
    (stream : ByteStream) : Except Err (List Nat × SgaFile μ × ByteStream) :=
  match f._data with
  | some d => .ok (d, f, stream)
  | none =>
    match f._lazy_info with
    | none => .error .typeError
    | some lazyInfo =>
      match lazyInfo.read inflate none stream with
      | .error e => .error e
      | .ok (b, s') => .ok (b, { f with _data := some b, _lazy_info := none }, s')

/-! ### Primitive codec

The `serialization_tools.structx.Struct` layer: fixed-width little-endian
scalars and fixed-length byte strings read from / written to a stream.
Record unpackers are written in a stream-state monad `SM`. -/

/-- Stream-state parsing monad: state-passing over `ByteStream` with
`Err`-valued failure. -/
def SM (α : Type) : Type := ByteStream → Except Err (α × ByteStream)

instance : Monad SM where
  pure a := fun s => .ok (a, s)
  bind m f := fun s =>
    match m s with
    | .error e => .error e
    | .ok (a, s') => f a s'

/-- Raise a Python exception. -/
def smThrow {α : Type} (e : Err) : SM α := fun _ => .error e

/-- Lift a stream-independent `Except` computation. -/
def smLift {α : Type} (x : Except Err α) : SM α := fun s =>
  match x with
  | .error e => .error e
  | .ok a => .ok (a, s)

/-- The `stream.read(n)` inside the monad. -/
def smRead (n : Nat) : SM (List Nat) := fun s =>
  let (b, s') := s.read n
  .ok (b, s')

/-- Read exactly `n` bytes; a short read is a `struct.error` (the `Struct`
layer always reads the layout's full size). -/
def smReadExact (n : Nat) : SM (List Nat) := fun s =>
  let (b, s') := s.read n
  if b.length = n then .ok (b, s') else .error .structError

/-- The `stream.seek(p)` inside the monad. -/
def smSeek (p : Nat) : SM Unit := fun s => .ok ((), s.seek p)

/-- The `stream.tell()` inside the monad. -/
def smTell : SM Nat := fun s => .ok (s.tell, s)

/-- Value of a little-endian byte list. -/
def leNat : List Nat → Nat
  | [] => 0
  | b :: rest => b + 256 * leNat rest

/-- The `w`-byte little-endian encoding of `v` (assumes `v < 256 ^ w`). -/
def toLEBytes : Nat → Nat → List Nat
  | 0, _ => []
  | w + 1, v => v % 256 :: toLEBytes w (v / 256)

/-- Unpack one unsigned `w`-byte little-endian integer. -/
def readUInt (w : Nat) : SM Nat := do
  let b ← smReadExact w
  pure (leNat b)

/-- Pack one unsigned integer into `w` little-endian bytes; a value that
does not fit the field is a `struct.error`. -/
def packUInt (w v : Nat) : Except Err (List Nat) :=
  if v < 256 ^ w then .ok (toLEBytes w v) else .error .structError

/-- The `bytes.rstrip(chars)`: remove trailing bytes drawn from `chars`.  With
`chars = []` (Python `b""`) nothing is stripped. -/
def rstripBytes (chars : List Nat) (b : List Nat) : List Nat :=
  (b.reverse.dropWhile (fun x => chars.contains x)).reverse

/-- The `bytes.decode("ascii")`: identity on byte values < 128, otherwise a
`UnicodeDecodeError`. -/
def asciiDecode (b : List Nat) : Except Err (List Nat) :=
  if b.all (fun x => x < 128) then .ok b else .error .asciiError

/-- The `bytes.decode("utf-16-le")` at the code-unit level: consecutive byte
pairs become 16-bit units.  (Surrogate pairing is not modelled; the archive
names relevant to the claims are ASCII code units and NULs.) -/
def utf16leUnits : List Nat → List Nat
  | lo :: hi :: rest => (lo + 256 * hi) :: utf16leUnits rest
  | _ => []

/-- The `str.encode("ascii")` for building concrete inputs: the code points of
an ASCII string as bytes. -/
def asciiBytes (s : String) : List Nat :=
  s.toList.map Char.toNat

/-! ### Record definitions and their serializers (V2 layouts) -/

/-- The `TocHeader` from `relic/sga/_abc.py`: four `(offset, count)` pairs. -/
structure TocHeader where
  drive_info : Nat × Nat
  folder_info : Nat × Nat
  file_info : Nat × Nat
  name_info : Nat × Nat
deriving DecidableEq, Repr, Inhabited

/-- The `ArchivePtrs` from `relic/sga/_abc.py`. -/
structure ArchivePtrs where
  header_pos : Nat
  header_size : Nat
  data_pos : Nat
  data_size : Option Nat
deriving DecidableEq, Repr, Inhabited

/-- The `DriveDef` from `relic/sga/_abc.py`. -/
structure DriveDef where
  alias_ : List Nat
  name : List Nat
  root_folder : Nat
  folder_range : Nat × Nat
  file_range : Nat × Nat
deriving DecidableEq, Repr, Inhabited

/-- The `FolderDef` from `relic/sga/_abc.py`. -/
structure FolderDef where
  name_pos : Nat
  folder_range : Nat × Nat
  file_range : Nat × Nat
deriving DecidableEq, Repr, Inhabited

/-- The `FileDefABC` from `relic/sga/_abc.py` (the V2 `FileDef` is exactly this
shape). -/
structure FileDef where
  name_pos : Nat
  data_pos : Nat
  length_on_disk : Nat
  length_in_archive : Nat
  storage_type : StorageType
deriving DecidableEq, Repr, Inhabited

/-- The `TocHeaderSerializer.unpack` from `relic/sga/_serializers.py` lines
21-36, at the V2 layout `<IH IH IH IH>` (u32 offset, u16 count, four
times). -/
def TocHeaderSerializer.unpackV2 : SM TocHeader := do
  let drivePos ← readUInt 4
  let driveCount ← readUInt 2
  let folderPos ← readUInt 4
  let folderCount ← readUInt 2
  let filePos ← readUInt 4
  let fileCount ← readUInt 2
  let namePos ← readUInt 4
  let nameCount ← readUInt 2
  pure ⟨(drivePos, driveCount), (folderPos, folderCount),
        (filePos, fileCount), (namePos, nameCount)⟩

/-- The `DriveDefSerializer.unpack` from `relic/sga/_serializers.py` lines
55-63, at the V2/V5 layout `<64s 64s 5H>`.  Alias and name are NUL-trimmed
(`rstrip(b"\x00")`) and ASCII-decoded. -/
def DriveDefSerializer.unpackV2 : SM DriveDef := do
  let encodedAlias ← smReadExact 64
  let encodedName ← smReadExact 64
  let folderStart ← readUInt 2
  let folderEnd ← readUInt 2
  let fileStart ← readUInt 2
  let fileEnd ← readUInt 2
  let rootFolder ← readUInt 2
  let alias_ ← smLift (asciiDecode (rstripBytes [0] encodedAlias))
  let name ← smLift (asciiDecode (rstripBytes [0] encodedName))
  pure ⟨alias_, name, rootFolder, (folderStart, folderEnd), (fileStart, fileEnd)⟩

/-- The `FolderDefSerializer.unpack` from `relic/sga/_serializers.py` lines
77-81, at the V2 layout `<I 4H>`. -/
def FolderDefSerializer.unpackV2 : SM FolderDef := do
  let namePos ← readUInt 4
  let folderStart ← readUInt 2
  let folderEnd ← readUInt 2
  let fileStart ← readUInt 2
  let fileEnd ← readUInt 2
  pure ⟨namePos, (folderStart, folderEnd), (fileStart, fileEnd)⟩

/-- The `FileDefSerializer.INT2STORAGE` from `relic/sga/v2/_serializers.py`
lines 24-29: wire values 0/16/32; any other value is a `KeyError`. -/
def INT2STORAGE (v : Nat) : Except Err StorageType :=
  if v = 0 then .ok .STORE
  else if v = 16 then .ok .BUFFER_COMPRESS
  else if v = 32 then .ok .STREAM_COMPRESS
  else .error .keyError

/-- V2 `FileDefSerializer.unpack` from `relic/sga/v2/_serializers.py` lines
34-38, layout `<5I>`; field order: name_pos, storage_type, data_pos,
length_on_disk, length_in_archive. -/
def FileDefSerializer.unpackV2 : SM FileDef := do
  let namePos ← readUInt 4
  let storageTypeVal ← readUInt 4
  let dataPos ← readUInt 4
  let lengthOnDisk ← readUInt 4
  let lengthInArchive ← readUInt 4
  let storageType ← smLift (INT2STORAGE storageTypeVal)
  pure ⟨namePos, dataPos, lengthOnDisk, lengthInArchive, storageType⟩

/-! ### Name-table reader (`read_toc_names_as_count`) -/

/-- The `buffer.split(b"\x00")`: split a byte list on NUL separators.  Always
returns a non-empty list; a leading/trailing/run of NULs contributes empty
parts, exactly as in Python. -/
def splitOnNull : List Nat → List (List Nat)
  | [] => [[]]
  | b :: rest =>
    if b = 0 then [] :: splitOnNull rest
    else
      match splitOnNull rest with
      | [] => [[b]]
      | p :: ps => (b :: p) :: ps

/-- Python `dict` assignment `names[k] = v` on an insertion-ordered
association list: overwrite in place when the key exists, append
otherwise. -/
def dictInsert (m : List (Nat × List Nat)) (k : Nat) (v : List Nat) :
    List (Nat × List Nat) :=
  if m.any (fun kv => kv.1 = k) then
    m.map (fun kv => if kv.1 = k then (k, v) else kv)
  else
    m ++ [(k, v)]

/-- Python `dict` lookup `m[k]`; a missing key is a `KeyError` at the call
site (`none` here). -/
def dictLookup (m : List (Nat × List Nat)) (k : Nat) : Option (List Nat) :=
  (m.find? (fun kv => kv.1 = k)).map (fun kv => kv.2)

/-- The emit loop of `read_toc_names_as_count` (lines 196-199 of
`relic/sga/_serializers.py`): `for _ in range(available): names[offset] =
parts[_].decode("ascii"); offset += len(parts[_]) + 1`.  Indexing past the
end of `parts` would be an `IndexError` (unreachable because `available ≤
len(parts)`). -/
def emitNames : List (List Nat) → Nat → List (Nat × List Nat) → Nat →
    Except Err (List (Nat × List Nat) × Nat)
  | _, 0, names, offset => .ok (names, offset)
  | [], _ + 1, _, _ => .error .indexError
  | p :: ps, a + 1, names, offset =>
    match asciiDecode p with
    | .error e => .error e
    | .ok d => emitNames ps a (dictInsert names offset d) (offset + p.length + 1)

/-- The `while len(names) < toc_info[1]` loop of `read_toc_names_as_count`
(`relic/sga/_serializers.py` lines 172-200), with a fuel parameter for the
unbounded loop: every iteration consumes at least one stream byte, so fuel
`data.length + 1` never runs out.  Each iteration reads a chunk, splits it
on NUL, merges the residual `running` buffer into the first part, rolls a
partial trailing fragment into the residual, and emits completed names;
a chunk with no NUL at all extends the residual and adds the whole chunk
length to `offset` before continuing. -/
def namesLoop : Nat → Nat → Nat → List (Nat × List Nat) → List Nat → Nat →
    ByteStream → Except Err (List (Nat × List Nat) × ByteStream)
  | 0, _, _, _, _, _, _ => .error .fuelExhausted
  | fuel + 1, bufferSize, count, names, running, offset, s =>
    if names.length < count then
      let (buffer, s') := s.read bufferSize
      if buffer.length = 0 then .error .nameTableTruncated
      else
        let terminalNull : Bool := buffer.getLast? = some 0
        match splitOnNull buffer with
        | p0 :: p1 :: rest =>
          let parts1 := (running ++ p0) :: p1 :: rest
          let running' := if terminalNull then [] else parts1.getLast?.getD []
          let parts2 := parts1.dropLast
          let remaining := count - names.length
          let available := min parts2.length remaining
          (emitNames parts2 available names offset).bind
            (fun r => namesLoop fuel bufferSize count r.1 running' r.2 s')
        | parts =>
          if terminalNull = false then
            namesLoop fuel bufferSize count names (running ++ parts.headD [])
              (offset + buffer.length) s'
          else
            let remaining := count - names.length
            let available := min parts.length remaining
            (emitNames parts available names offset).bind
              (fun r => namesLoop fuel bufferSize count r.1 running r.2 s')
    else .ok (names, s)

/-- The `read_toc_names_as_count` from `relic/sga/_serializers.py` lines
167-200: seek to `header_pos + toc_info[0]`, then run the chunked reading
loop until `toc_info[1]` names have been collected.  Returns the
offset-to-name mapping together with the stream. -/
def read_toc_names_as_count (stream : ByteStream) (tocInfo : Nat × Nat)
    (headerPos : Nat) (bufferSize : Nat) :
    Except Err (List (Nat × List Nat) × ByteStream) :=
  let s := stream.seek (headerPos + tocInfo.1)
  namesLoop (s.data.length + 1) bufferSize tocInfo.2 [] [] 0 s

/-! ### Checksum helper -/

/-- The MD5 oracle: stands for `hashlib.md5`, whose implementation is
outside this repository.  It maps an input byte string to its digest. -/
def Md5 : Type := List Nat → List Nat

/-- The `Md5ChecksumHelper` from `relic/sga/_serializers.py` lines 237-243 (the
stream reference is threaded explicitly). -/
structure Md5ChecksumHelper where
  expected : Option (List Nat)
  start : Nat
  size : Option Nat
  eigen : Option (List Nat)
deriving DecidableEq, Repr, Inhabited

/-- The `Md5ChecksumHelper.read` (lines 245-255): seek to `start`, hash the
eigen (salt) followed by the window of `size` bytes (to end of stream when
`size` is absent); chunked reading collapses to hashing the whole
window. -/
def Md5ChecksumHelper.readDigest (md5 : Md5) (h : Md5ChecksumHelper)
    (s : ByteStream) : List Nat :=
  let window :=
    match h.size with
    | some n => (s.data.drop h.start).take n
    | none => s.data.drop h.start
  md5 (h.eigen.getD [] ++ window)

/-- The `Md5ChecksumHelper.validate` (lines 257-260): recompute the digest and
raise `MD5MismatchError` unless it equals `expected`. -/
def Md5ChecksumHelper.validate (md5 : Md5) (h : Md5ChecksumHelper)
    (s : ByteStream) : Except Err Unit :=
  let result := h.readDigest md5 s
  if h.expected ≠ some result then .error .md5Mismatch else .ok ()

/-! ### Python list indexing and slicing -/

/-- Python `l[i]`: negative indices count from the end; anything out of
range is an `IndexError`. -/
def pyGet {α : Type} (l : List α) (i : Int) : Except Err α :=
  let j := if i < 0 then i + l.length else i
  if h : 0 ≤ j ∧ j < l.length then
    .ok (l.get ⟨j.toNat, by omega⟩)
  else
    .error .indexError

/-- The index set of Python `l[a:b]` on a list of length `n`: negative
endpoints count from the end, then both are clamped to `[0, n]`. -/
def pySliceIdx (n : Nat) (a b : Int) : List Nat :=
  let a' := (max 0 (min (if a < 0 then a + n else a) n)).toNat
  let b' := (max 0 (min (if b < 0 then b + n else b) n)).toNat
  List.range' a' (b' - a')

/-- Python `l[a:b]` itself. -/
def pySlice {α : Type} (l : List α) (a b : Int) : List α :=
  (pySliceIdx l.length a b).filterMap (fun i => l.get? i)

/-! ### Tree assembler

Python wires the tree with shared mutable objects and parent
back-references.  The embedding keeps, per drive, the flat lists the
assembler builds (`local_folders`, `local_files`) and represents each
folder's `sub_folders` / `files` slices by their index sets; the
parent-pointer mutation pass becomes an index-to-parent map defined
below (`AsmDriveBundle.folderParent` / `fileParent`). -/

/-- A `Folder` as assembled by `assemble_folders`: its decoded name, the
indices (into the drive-local folder list) of its `sub_folders` slice, and
the indices (into the drive-local file list) of its `files` slice. -/
structure AsmFolder where
  name : List Nat
  subIdx : List Nat
  fileIdx : List Nat
deriving DecidableEq, Repr, Inhabited

/-- A `Drive` as assembled by `assemble_io_from_defs`: alias, name, and the
root folder's sub-folder and file index sets (Python aliases the root
folder's lists into the drive). -/
structure AsmDrive where
  alias_ : List Nat
  name : List Nat
  subIdx : List Nat
  fileIdx : List Nat
deriving DecidableEq, Repr, Inhabited

/-- One drive's assembled slice of the archive: the drive plus the
drive-local folder and file lists its index sets refer to. -/
structure AsmDriveBundle (μ : Type) where
  drive : AsmDrive
  folders : List AsmFolder
  files : List (SgaFile μ)
deriving DecidableEq, Repr

instance {μ : Type} [Inhabited μ] : Inhabited (AsmDriveBundle μ) :=
  ⟨⟨default, [], []⟩⟩

/-- The `assemble_files` from `relic/sga/_serializers.py` lines 92-101: resolve
each file definition's name from the name table (`KeyError` when absent),
attach a lazy handle at `data_pos + file_def.data_pos`, and mark the file
compressed when its storage type is not `STORE`. -/
def assemble_files {μ : Type} (fileDefs : List FileDef)
    (names : List (Nat × List Nat)) (dataPos : Nat)
    (buildFileMeta : FileDef → μ) (decompress : Bool) :
    Except Err (List (SgaFile μ)) :=
  match fileDefs with
  | [] => .ok []
  | fd :: rest =>
    match dictLookup names fd.name_pos with
    | none => .error .keyError
    | some name =>
      let lazyInfo : FileLazyInfo :=
        ⟨dataPos + fd.data_pos, fd.length_in_archive, fd.length_on_disk, decompress⟩
      let fileCompressed := fd.storage_type ≠ .STORE
      let file : SgaFile μ :=
        ⟨name, none, fd.storage_type, fileCompressed, buildFileMeta fd, some lazyInfo⟩
      (assemble_files rest names dataPos buildFileMeta decompress).bind
        (fun files => .ok (file :: files))

/-- The `assemble_folders` from `relic/sga/_serializers.py` lines 104-118:
first pass resolves names and the file slice (rebased by `file_offset`),
second pass wires the sub-folder slice (rebased by `folder_offset`).  The
final parent-assignment pass mutates only parent pointers, which the
bundle's parent maps account for. -/
def buildFolderList (build : FolderDef → Except Err AsmFolder) :
    List FolderDef → Except Err (List AsmFolder)
  | [] => .ok []
  | fd :: rest =>
    (build fd).bind (fun f =>
      (buildFolderList build rest).bind (fun fs => .ok (f :: fs)))

/-- See `buildFolderList`; this is `assemble_folders` itself, with the
rebasing arithmetic of both passes.  (The slice index sets are computed
against the *full* local folder count.) -/
def assemble_folders (folderDefs : List FolderDef)
    (names : List (Nat × List Nat)) (filesLen : Nat)
    (fileOffset folderOffset : Nat) : Except Err (List AsmFolder) :=
  let folderCount := folderDefs.length
  let build : FolderDef → Except Err AsmFolder := fun fd =>
    match dictLookup names fd.name_pos with
    | none => .error .keyError
    | some folderName =>
      .ok ⟨folderName,
        pySliceIdx folderCount ((fd.folder_range.1 : Int) - folderOffset)
          ((fd.folder_range.2 : Int) - folderOffset),
        pySliceIdx filesLen ((fd.file_range.1 : Int) - fileOffset)
          ((fd.file_range.2 : Int) - fileOffset)⟩
  buildFolderList build folderDefs

/-- The `assemble_io_from_defs` from `relic/sga/_serializers.py` lines 121-138:
per drive, slice out its file and folder definitions, assemble them, pick
the root folder (rebased; `IndexError` when out of range) and alias its
children into the drive. -/
def assemble_io_from_defs {μ : Type} (driveDefs : List DriveDef)
    (folderDefs : List FolderDef) (fileDefs : List FileDef)
    (names : List (Nat × List Nat)) (dataPos : Nat)
    (buildFileMeta : FileDef → μ) (decompress : Bool) :
    Except Err (List (AsmDriveBundle μ)) :=
  match driveDefs with
  | [] => .ok []
  | dd :: rest =>
    let localFileDefs := pySlice fileDefs dd.file_range.1 dd.file_range.2
    (assemble_files localFileDefs names dataPos buildFileMeta decompress).bind
      (fun localFiles =>
        let localFolderDefs := pySlice folderDefs dd.folder_range.1 dd.folder_range.2
        (assemble_folders localFolderDefs names localFiles.length
            dd.file_range.1 dd.folder_range.1).bind
          (fun localFolders =>
            let rootFolder : Int := (dd.root_folder : Int) - dd.folder_range.1
            (pyGet localFolders rootFolder).bind
              (fun driveFolder =>
                let drive : AsmDrive :=
                  ⟨dd.alias_, dd.name, driveFolder.subIdx, driveFolder.fileIdx⟩
                (assemble_io_from_defs rest folderDefs fileDefs names dataPos
                    buildFileMeta decompress).bind
                  (fun bundles =>
                    .ok (⟨drive, localFolders, localFiles⟩ :: bundles)))))

/-- The `load_lazy_data` from `relic/sga/_serializers.py` lines 278-284,
restricted to one list of files: resolve each file's lazy handle in order
(`Exception` when a handle is missing), cache the bytes and drop the
handle. -/
def loadFiles {μ : Type} (inflate : Inflate) :
    List (SgaFile μ) → ByteStream → Except Err (List (SgaFile μ) × ByteStream)
  | [], s => .ok ([], s)
  | f :: rest, s =>
    match f._lazy_info with
    | none => .error .apiError
    | some lazyInfo =>
      (lazyInfo.read inflate none s).bind
        (fun r =>
          (loadFiles inflate rest r.2).bind
            (fun rr =>
              .ok ({ f with _data := some r.1, _lazy_info := none } :: rr.1,
                rr.2)))

/-- The `load_lazy_data` over the whole archive: the global `all_files` list is
the concatenation of the per-drive file lists, resolved in that order. -/
def loadBundles {μ : Type} (inflate : Inflate) :
    List (AsmDriveBundle μ) → ByteStream →
    Except Err (List (AsmDriveBundle μ) × ByteStream)
  | [], s => .ok ([], s)
  | b :: rest, s =>
    (loadFiles inflate b.files s).bind
      (fun r =>
        (loadBundles inflate rest r.2).bind
          (fun rr => .ok ({ b with files := r.1 } :: rr.1, rr.2)))

/-! ### Version driver (V2) -/

/-- Modelled from the spec: the eight-byte magic word `"_ARCHIVE"`
(`relic.sga._core.MagicWord` is not in the source tree); reading checks the
first 8 bytes and raises on mismatch. -/
def MAGIC_WORD : List Nat := asciiBytes "_ARCHIVE"

/-- Modelled from the spec: `MagicWord.read_magic_word` — read 8 bytes and
fail with a magic-word mismatch unless they are `"_ARCHIVE"`. -/
def readMagicWord : SM Unit := do
  let b ← smRead 8
  if b = MAGIC_WORD then pure () else smThrow .magicMismatch

/-- Modelled from the spec: `Version.unpack` — two 16-bit little-endian
fields, `major` then `minor`. -/
def versionUnpack : SM (Nat × Nat) := do
  let major ← readUInt 2
  let minor ← readUInt 2
  pure (major, minor)

/-- Decoding of the 128-byte UTF-16-LE archive-name field as every version
driver performs it: `encoded_name.rstrip(b"").decode("utf-16-le")` — note
the `rstrip` argument is the empty byte string, which strips nothing. -/
def decodeArchiveName (encoded : List Nat) : List Nat :=
  utf16leUnits (rstripBytes [] encoded)

/-- The V2 `ArchiveHeader` (`relic/sga/v2/_serializers.py` lines 47-55). -/
structure ArchiveHeaderV2 where
  name : List Nat
  ptrs : ArchivePtrs
  file_md5 : List Nat
  header_md5 : List Nat
deriving DecidableEq, Repr, Inhabited

/-- V2 `ArchiveHeaderSerializer.unpack` from `relic/sga/v2/_serializers.py`
lines 67-72, layout `<16s 128s 16s 2I>`: file MD5, encoded name, header
MD5, header size, data position; `header_pos` is the cursor after the
header. -/
def ArchiveHeaderSerializer.unpackV2 : SM ArchiveHeaderV2 := do
  let fileMd5 ← smReadExact 16
  let encodedName ← smReadExact 128
  let headerMd5 ← smReadExact 16
  let headerSize ← readUInt 4
  let dataPos ← readUInt 4
  let headerPos ← smTell
  let name := decodeArchiveName encodedName
  pure ⟨name, ⟨headerPos, headerSize, dataPos, none⟩, fileMd5, headerMd5⟩

/-- V2 `ArchiveMetadata` (`relic/sga/v2/_core.py`): the two checksum
helpers. -/
structure ArchiveMetadataV2 where
  _file_md5 : Md5ChecksumHelper
  _header_md5 : Md5ChecksumHelper
deriving DecidableEq, Repr, Inhabited

/-- The decoded V2 `Archive` (file metadata is `None` in V2, here
`Unit`). -/
structure ArchiveV2 where
  name : List Nat
  metadata : ArchiveMetadataV2
  drives : List (AsmDriveBundle Unit)
deriving DecidableEq, Repr, Inhabited

/-- The `_unpack_helper` from `relic/sga/_serializers.py` lines 148-150: seek
to `header_pos + toc_info[0]` and unpack `toc_info[1]` records. -/
def smRepeat {α : Type} (m : SM α) : Nat → SM (List α)
  | 0 => pure []
  | n + 1 => do
    let a ← m
    let rest ← smRepeat m n
    pure (a :: rest)

/-- See `smRepeat`; this is `_unpack_helper` itself. -/
def unpackHelper {α : Type} (m : SM α) (tocInfo : Nat × Nat)
    (headerPos : Nat) : SM (List α) := do
  smSeek (headerPos + tocInfo.1)
  smRepeat m tocInfo.2

/-- The `ArchiveSerializer.FILE_MD5_EIGEN` shared by V2 and V5. -/
def FILE_MD5_EIGEN : List Nat := asciiBytes "E01519D6-2DB7-4640-AF54-0A23319C56C3"

/-- The `ArchiveSerializer.HEADER_MD5_EIGEN` shared by V2 and V5. -/
def HEADER_MD5_EIGEN : List Nat := asciiBytes "DFC9AF62-FC1B-4180-BC27-11CCE87D3EFF"

/-- The version check of every driver (`if stream_version != self.version:
raise VersionMismatchError`). -/
def checkVersion (streamVersion expected : Nat × Nat) : SM Unit :=
  if streamVersion ≠ expected then smThrow .versionMismatch else pure ()

/-- The `if not lazy: load_lazy_data(files)` (V2 `read` lines 118-119). -/
def maybeLoad (inflate : Inflate) (lazy : Bool)
    (bundles : List (AsmDriveBundle Unit)) : SM (List (AsmDriveBundle Unit)) :=
  if lazy then pure bundles else fun s => loadBundles inflate bundles s

/-- V2 `ArchiveSerializer.read` from `relic/sga/v2/_serializers.py` lines
97-136: magic word, version check against `(2, 0)`, header, TOC header (the
cursor is already at `header_pos`), definition arrays, name table, tree
assembly, optional eager load, and finally the archive with its two
checksum helpers attached — `validate` is never called. -/
def v2Read (inflate : Inflate) (lazy : Bool) (decompress : Bool) :
    SM ArchiveV2 := do
  readMagicWord
  let streamVersion ← versionUnpack
  checkVersion streamVersion (2, 0)
  let archiveHeader ← ArchiveHeaderSerializer.unpackV2
  let tocHeader ← TocHeaderSerializer.unpackV2
  let headerPos := archiveHeader.ptrs.header_pos
  let driveDefs ← unpackHelper DriveDefSerializer.unpackV2 tocHeader.drive_info headerPos
  let folderDefs ← unpackHelper FolderDefSerializer.unpackV2 tocHeader.folder_info headerPos
  let fileDefs ← unpackHelper FileDefSerializer.unpackV2 tocHeader.file_info headerPos
  let names ← fun s => read_toc_names_as_count s tocHeader.name_info headerPos 256
  let bundles ← smLift (assemble_io_from_defs driveDefs folderDefs fileDefs
    names archiveHeader.ptrs.data_pos (fun _ => ()) decompress)
  let bundles ← maybeLoad inflate lazy bundles
  let fileMd5Helper : Md5ChecksumHelper :=
    ⟨some archiveHeader.file_md5, headerPos, none, some FILE_MD5_EIGEN⟩
  let headerMd5Helper : Md5ChecksumHelper :=
    ⟨some archiveHeader.header_md5, headerPos, some archiveHeader.ptrs.header_size,
      some HEADER_MD5_EIGEN⟩
  pure ⟨archiveHeader.name, ⟨fileMd5Helper, headerMd5Helper⟩, bundles⟩

/-! ### Parent back-references

`assemble_folders` ends with `for folder in folders:
_apply_self_as_parent(folder)` and `assemble_io_from_defs` follows with
`_apply_self_as_parent(drive)`; each call overwrites the `parent` field of
every child in the container's slices, so a child's final parent is the
drive when the child sits in the root folder's slice (the drive aliases
those lists and is applied last), and otherwise the *last* folder, in list
order, whose slice contains the child. -/

/-- Parent of a node in the assembled object graph. -/
inductive ParentRef where
  | drive
  | folderRef (i : Nat)
deriving DecidableEq, Repr

/-- Last-assignment-wins parent map over a folder list: the parent
contributed by the last folder (at absolute index `i0 + position`) whose
`proj` slice contains `j`, if any.  `proj` is the sub-folder index set for
folder children and the file index set for file children. -/
def foldersParentMapAux (proj : AsmFolder → List Nat) (i0 : Nat) :
    List AsmFolder → Nat → Option ParentRef
  | [], _ => none
  | f :: rest, j =>
    match foldersParentMapAux proj (i0 + 1) rest j with
    | some r => some r
    | none => if (proj f).contains j then some (.folderRef i0) else none

/-- Final parent of the folder at local index `j` in a drive bundle. -/
def AsmDriveBundle.folderParent {μ : Type} (b : AsmDriveBundle μ) (j : Nat) :
    Option ParentRef :=
  if b.drive.subIdx.contains j then some .drive
  else foldersParentMapAux (fun f => f.subIdx) 0 b.folders j

/-- Final parent of the file at local index `j` in a drive bundle. -/
def AsmDriveBundle.fileParent {μ : Type} (b : AsmDriveBundle μ) (j : Nat) :
    Option ParentRef :=
  if b.drive.fileIdx.contains j then some .drive
  else foldersParentMapAux (fun f => f.fileIdx) 0 b.folders j

/-- Folders yielded by `archive.walk()` within one drive
(`relic/sga/_abc.py` lines 89-93 and 107-111, 177-180): the drive yields
its sub-folders, and every yielded folder yields its own sub-folders. -/
inductive ReachedFolder {μ : Type} (b : AsmDriveBundle μ) : Nat → Prop
  | fromDrive {j : Nat} : j ∈ b.drive.subIdx → ReachedFolder b j
  | fromFolder {i j : Nat} : ReachedFolder b i →
      j ∈ (b.folders.getD i default).subIdx → ReachedFolder b j

/-- Files yielded by `archive.walk()` within one drive: the drive's own
files plus the files of every yielded folder. -/
def ReachedFile {μ : Type} (b : AsmDriveBundle μ) (j : Nat) : Prop :=
  j ∈ b.drive.fileIdx ∨
    ∃ i, ReachedFolder b i ∧ j ∈ (b.folders.getD i default).fileIdx

/-- The parent chain starting at folder `j` is non-`None` at every step and
reaches the drive in finitely many steps. -/
inductive FolderChain {μ : Type} (b : AsmDriveBundle μ) : Nat → Prop
  | toDrive {j : Nat} : b.folderParent j = some .drive → FolderChain b j
  | toFolder {j i : Nat} : b.folderParent j = some (.folderRef i) →
      FolderChain b i → FolderChain b j

/-- The parent chain starting at file `j` is non-`None` and reaches the
drive. -/
def FileChain {μ : Type} (b : AsmDriveBundle μ) (j : Nat) : Prop :=
  b.fileParent j = some .drive ∨
    ∃ i, b.fileParent j = some (.folderRef i) ∧ FolderChain b i

/-! ### V5 pieces used by the claims -/

/-- Modelled from the spec: the wire value of a `StorageType` for V5+
(`relic.sga._core.StorageType` is not in the source tree) — "V5+ use 0/1/2
directly (STORE/BUFFER_COMPRESS/STREAM_COMPRESS)". -/
def StorageType.wireValue : StorageType → Nat
  | .STORE => 0
  | .BUFFER_COMPRESS => 1
  | .STREAM_COMPRESS => 2

/-- Modelled from the spec: `StorageType(value)` for V5+ — the inverse of
`wireValue`; anything outside `{0, 1, 2}` raises a typed error. -/
def StorageType.ofWire (v : Nat) : Except Err StorageType :=
  if v = 0 then .ok .STORE
  else if v = 1 then .ok .BUFFER_COMPRESS
  else if v = 2 then .ok .STREAM_COMPRESS
  else .error .valueError

/-- The V5 `FileDef` (`relic/sga/v5/core.py`): the base shape plus
`modified` and `verification`.  `modified` is kept as its POSIX timestamp
(what `datetime.fromtimestamp` receives and `.timestamp()` returns);
`verification` is kept as its wire value, since `relic.sga._core`'s
`VerificationType` is not in the source tree and the spec does not
enumerate its values. -/
structure FileDefV5 where
  name_pos : Nat
  data_pos : Nat
  length_on_disk : Nat
  length_in_archive : Nat
  storage_type : StorageType
  modified : Nat
  verification : Nat
deriving DecidableEq, Repr, Inhabited

/-- V5 `FileDefSerializer.unpack` from `relic/sga/v5/_serializers.py` lines
22-29, layout `<5I 2B>`; the unpacked tuple is read in the order name_pos,
data_pos, length, store_length, modified_seconds, verification, storage. -/
def FileDefSerializer.unpackV5 : SM FileDefV5 := do
  let nameRelPos ← readUInt 4
  let dataRelPos ← readUInt 4
  let length ← readUInt 4
  let storeLength ← readUInt 4
  let modifiedSeconds ← readUInt 4
  let verificationTypeVal ← readUInt 1
  let storageTypeVal ← readUInt 1
  let storageType ← smLift (StorageType.ofWire storageTypeVal)
  pure ⟨nameRelPos, dataRelPos, length, storeLength, storageType,
    modifiedSeconds, verificationTypeVal⟩

/-- V5 `FileDefSerializer.pack` from `relic/sga/v5/_serializers.py` lines
31-37: the argument tuple is, in order, name_pos, data_pos, length_on_disk,
length_in_archive, storage_type, modified, verification — packed into the
same `<5I 2B>` layout that `unpack` reads.  A value that does not fit its
field (e.g. a timestamp over 255 in the one-byte slot) is a
`struct.error`. -/
def FileDefSerializer.packV5 (f : FileDefV5) : Except Err (List Nat) := do
  let b1 ← packUInt 4 f.name_pos
  let b2 ← packUInt 4 f.data_pos
  let b3 ← packUInt 4 f.length_on_disk
  let b4 ← packUInt 4 f.length_in_archive
  let b5 ← packUInt 4 f.storage_type.wireValue
  let b6 ← packUInt 1 f.modified
  let b7 ← packUInt 1 f.verification
  pure (b1 ++ b2 ++ b3 ++ b4 ++ b5 ++ b6 ++ b7)

/-- The checksum-helper construction in V5 `ArchiveSerializer.read`
(`relic/sga/v5/_serializers.py` lines 112-113): both the file-MD5 helper
(window from `header_pos` to end of stream) and the header-MD5 helper
(window `header_pos .. header_pos + header_size`) are constructed with
`eigen=self.FILE_MD5_EIGEN`.  The V5 class declares the same two eigen
constants as V2 (lines 84-85). -/
def v5BuildChecksumHelpers (fileMd5 headerMd5 : List Nat)
    (ptrs : ArchivePtrs) : Md5ChecksumHelper × Md5ChecksumHelper :=
  (⟨some fileMd5, ptrs.header_pos, none, some FILE_MD5_EIGEN⟩,
   ⟨some headerMd5, ptrs.header_pos, some ptrs.header_size, some FILE_MD5_EIGEN⟩)

/-! ### Archive-name decoding in each version driver (for the name-trim
claim) -/

/-- The V2 name decode, `relic/sga/v2/_serializers.py` line 70:
`encoded_name.rstrip(b"").decode(self.ENCODING)`. -/
def v2DecodeArchiveName (encoded : List Nat) : List Nat :=
  utf16leUnits (rstripBytes [] encoded)

/-- The V5 name decode, `relic/sga/v5/_serializers.py` line 60 (same
expression). -/
def v5DecodeArchiveName (encoded : List Nat) : List Nat :=
  utf16leUnits (rstripBytes [] encoded)

/-- The V7 name decode, `relic/sga/v7/_serializers.py` line 66 (same
expression). -/
def v7DecodeArchiveName (encoded : List Nat) : List Nat :=
  utf16leUnits (rstripBytes [] encoded)

/-- The V9 name decode, `relic/sga/v9/_serializers.py` line 104 (same
expression). -/
def v9DecodeArchiveName (encoded : List Nat) : List Nat :=
  utf16leUnits (rstripBytes [] encoded)

/-- What the spec prescribes for the name field ("NUL-padded to field
width, right-trimmed on decode"): the decoded name with its trailing NUL
padding removed, expressed at the code-unit level. -/
def specDecodeArchiveName (encoded : List Nat) : List Nat :=
  rstripBytes [0] (utf16leUnits encoded)

/-! ### Concrete inputs -/

/-- Classifies a decode result as a checksum-validation failure
(`MD5MismatchError`). -/
def isChecksumError {α : Type} : Except Err α → Bool
  | .error .md5Mismatch => true
  | _ => false

/-- The `Except` success test. -/
def exceptIsOk {α : Type} : Except Err α → Bool
  | .ok _ => true
  | .error _ => false

/-- A stream computation never fails with the checksum-validation error. -/
def NoMd5 {α : Type} (m : SM α) : Prop :=
  ∀ s, isChecksumError (m s) = false

/-- A complete, structurally well-formed V2 archive: one drive `data:`
named `test`, whose root folder `root` holds one `STORE`d file `hello.txt`
with payload `Hello` — but whose two stored MD5 digests are garbage
(constant bytes, not the digest of anything). -/
def v2SampleArchive : List Nat :=
  MAGIC_WORD ++ [2, 0, 0, 0]
  ++ List.replicate 16 1
  ++ List.replicate 128 0
  ++ List.replicate 16 2
  ++ toLEBytes 4 209
  ++ toLEBytes 4 389
  ++ toLEBytes 4 24 ++ toLEBytes 2 1
  ++ toLEBytes 4 162 ++ toLEBytes 2 1
  ++ toLEBytes 4 174 ++ toLEBytes 2 1
  ++ toLEBytes 4 194 ++ toLEBytes 2 2
  ++ (asciiBytes "data" ++ List.replicate 60 0)
  ++ (asciiBytes "test" ++ List.replicate 60 0)
  ++ toLEBytes 2 0 ++ toLEBytes 2 1 ++ toLEBytes 2 0 ++ toLEBytes 2 1 ++ toLEBytes 2 0
  ++ toLEBytes 4 0 ++ toLEBytes 2 1 ++ toLEBytes 2 1 ++ toLEBytes 2 0 ++ toLEBytes 2 1
  ++ toLEBytes 4 5 ++ toLEBytes 4 0 ++ toLEBytes 4 0 ++ toLEBytes 4 5 ++ toLEBytes 4 5
  ++ asciiBytes "root" ++ [0] ++ asciiBytes "hello.txt" ++ [0]
  ++ asciiBytes "Hello"

/-- What decoding `v2SampleArchive` eagerly produces: the (untrimmed)
name field, the two checksum helpers carrying the stored garbage digests
over their windows, and one drive with the loaded `Hello` payload. -/
def v2SampleDecoded : ArchiveV2 :=
  { name := List.replicate 64 0,
    metadata :=
      { _file_md5 := ⟨some (List.replicate 16 1), 180, none, some FILE_MD5_EIGEN⟩,
        _header_md5 :=
          ⟨some (List.replicate 16 2), 180, some 209, some HEADER_MD5_EIGEN⟩ },
    drives :=
      [{ drive := ⟨asciiBytes "data", asciiBytes "test", [], [0]⟩,
         folders := [⟨asciiBytes "root", [], [0]⟩],
         files := [⟨asciiBytes "hello.txt", some (asciiBytes "Hello"), .STORE,
           false, (), none⟩] }] }

/-- A concrete assembled drive bundle (what `assemble_io_from_defs`
produces for a drive whose root folder holds one sub-folder and one file):
folder 0 is the root (children: folder 1, file 0), folder 1 is empty; the
drive aliases the root folder's child lists. -/
def sampleBundle : AsmDriveBundle Unit :=
  { drive := ⟨asciiBytes "data", asciiBytes "test", [1], [0]⟩,
    folders := [⟨asciiBytes "root", [1], [0]⟩, ⟨asciiBytes "sub", [], []⟩],
    files := [⟨asciiBytes "hello.txt", some (asciiBytes "Hello"), .STORE,
      false, (), none⟩] }

/-! ## Theorems -/

/-- C1: for every file lazy handle whose packed size equals its unpacked
size, `read` succeeds with exactly the `packed_size` bytes found at
`jump_to` and returns the stream unchanged, for every inflate oracle and
every value of the decompress flag/argument (no inflation is attempted:
the result does not depend on `inflate`); the returned buffer has length
`packed_size`. -/
theorem lazyRead_equalSizes_returns_stored_bytes (inflate : Inflate)
    (li : FileLazyInfo) (decompressArg : Option Bool) (s : ByteStream)
    (hsize : li.packed_size = li.unpacked_size)
    (hbound : li.jump_to + li.packed_size ≤ s.data.length) :
    li.read inflate decompressArg s
        = .ok ((s.data.drop li.jump_to).take li.packed_size, s)
      ∧ ((s.data.drop li.jump_to).take li.packed_size).length = li.packed_size := by
  constructor
  · unfold FileLazyInfo.read
    simp [ByteStream.read, ByteStream.seek, ByteStream.tell, hsize]
  · simp only [List.length_take, List.length_drop]
    omega

/-- Witness for C1 at a concrete handle and stream. -/
theorem lazyRead_equalSizes_witness :
    (FileLazyInfo.mk 1 2 2 true).read (fun _ => some []) (some true)
        (ByteStream.mk [9, 8, 7, 6] 3)
      = .ok ([8, 7], ByteStream.mk [9, 8, 7, 6] 3) := by
  have h := lazyRead_equalSizes_returns_stored_bytes (fun _ => some [])
    ⟨1, 2, 2, true⟩ (some true) ⟨[9, 8, 7, 6], 3⟩ rfl (by decide)
  exact h.1

/-- C2: with the decompress flag effectively true and packed size different
from unpacked size, `read` inflates the packed bytes and fails with
`DecompressedSizeMismatch` exactly when the inflated length differs from
the declared unpacked size (`length_on_disk`); any successful result has
length `unpacked_size`. -/
theorem lazyRead_decompress_checks_inflated_length (inflate : Inflate)
    (li : FileLazyInfo) (decompressArg : Option Bool) (s : ByteStream)
    (out : List Nat)
    (hdec : decompressArg.getD li.decompress = true)
    (hneq : li.packed_size ≠ li.unpacked_size)
    (hinf : inflate ((s.data.drop li.jump_to).take li.packed_size) = some out) :
    (li.read inflate decompressArg s
        = .error (.decompressedSizeMismatch out.length li.unpacked_size)
      ↔ out.length ≠ li.unpacked_size)
    ∧ ∀ b s', li.read inflate decompressArg s = .ok (b, s') →
        b.length = li.unpacked_size := by
  unfold FileLazyInfo.read
  simp only [ByteStream.read, ByteStream.seek, ByteStream.tell, hdec, hneq,
    ne_eq, not_false_eq_true, and_self, if_true, hinf]
  by_cases h : out.length = li.unpacked_size
  · simp [h]
  · simp [h]

/-- Witness for C2: a 1-byte packed payload inflated by a doubling oracle
to the declared 2-byte unpacked size. -/
theorem lazyRead_decompress_witness :
    ((FileLazyInfo.mk 0 1 2 true).read (fun b => some (b ++ b)) none
          (ByteStream.mk [7] 0)
        = .error (.decompressedSizeMismatch 2 2) ↔ (2 : Nat) ≠ 2)
    ∧ ([7, 7] : List Nat).length = 2 := by
  have h := lazyRead_decompress_checks_inflated_length (fun b => some (b ++ b))
    ⟨0, 1, 2, true⟩ none ⟨[7], 0⟩ [7, 7] rfl (by decide) rfl
  exact ⟨h.1, h.2 [7, 7] ⟨[7], 0⟩ rfl⟩

/-- C8: a successful lazy read leaves the stream cursor where it was. -/
theorem lazyRead_restores_cursor (inflate : Inflate) (li : FileLazyInfo)
    (decompressArg : Option Bool) (s : ByteStream) (b : List Nat)
    (s' : ByteStream) (h : li.read inflate decompressArg s = .ok (b, s')) :
    s'.pos = s.pos := by
  unfold FileLazyInfo.read at h
  simp only [ByteStream.read, ByteStream.seek, ByteStream.tell] at h
  split at h
  · split at h
    · exact absurd h (by simp)
    · split at h
      · exact absurd h (by simp)
      · injection h with h'
        injection h' with _ h''
        subst h''
        rfl
  · injection h with h'
    injection h' with _ h''
    subst h''
    rfl

/-- Witness for C8 at a concrete handle and stream. -/
theorem lazyRead_restores_cursor_witness :
    (ByteStream.mk ([] : List Nat) 5).pos = (ByteStream.mk ([] : List Nat) 5).pos := by
  exact lazyRead_restores_cursor (fun _ => none) ⟨0, 0, 0, false⟩ none
    ⟨[], 5⟩ [] ⟨[], 5⟩ rfl

/-- C10: with neither cached bytes nor a lazy handle, the `data` property
raises `TypeError`; with a lazy handle whose read succeeds, the first
access returns the read bytes, caches them on the file and drops the
handle, and every later access returns the same bytes against any stream
and any inflate oracle, without touching the stream. -/
theorem file_data_property_behaviour {μ : Type} (inflate : Inflate)
    (f : SgaFile μ) (s : ByteStream) :
    (f._data = none → f._lazy_info = none →
      f.dataGet inflate s = .error .typeError)
    ∧ ∀ li b s', f._data = none → f._lazy_info = some li →
        li.read inflate none s = .ok (b, s') →
        f.dataGet inflate s
            = .ok (b, { f with _data := some b, _lazy_info := none }, s')
          ∧ ∀ (inflate' : Inflate) (s₂ : ByteStream),
              SgaFile.dataGet inflate' { f with _data := some b, _lazy_info := none } s₂
                = .ok (b, { f with _data := some b, _lazy_info := none }, s₂) := by
  constructor
  · intro hd hl
    unfold SgaFile.dataGet
    rw [hd, hl]
  · intro li b s' hd hl hread
    refine ⟨?_, ?_⟩
    · unfold SgaFile.dataGet
      rw [hd, hl]
      simp [hread]
    · intro inflate' s₂
      unfold SgaFile.dataGet
      rfl

/-- Witness for C10: one file with no handle, one with a handle over a
concrete stream. -/
theorem file_data_property_witness :
    ((SgaFile.mk [] none .STORE false () none : SgaFile Unit).dataGet
        (fun _ => none) (ByteStream.mk [3] 0) = .error .typeError)
    ∧ ((SgaFile.mk [] none .STORE false () (some ⟨0, 1, 1, false⟩) : SgaFile Unit).dataGet
          (fun _ => none) (ByteStream.mk [3] 0)
        = .ok ([3], SgaFile.mk [] (some [3]) .STORE false () none,
            ByteStream.mk [3] 0))
    ∧ ((SgaFile.mk [] (some [3]) .STORE false () none : SgaFile Unit).dataGet
          (fun _ => some []) (ByteStream.mk [] 9)
        = .ok ([3], SgaFile.mk [] (some [3]) .STORE false () none,
            ByteStream.mk [] 9)) := by
  refine ⟨?_, ?_, ?_⟩
  · exact (file_data_property_behaviour (fun _ => none)
      (SgaFile.mk [] none .STORE false () none) ⟨[3], 0⟩).1 rfl rfl
  · exact ((file_data_property_behaviour (fun _ => none)
      (SgaFile.mk [] none .STORE false () (some ⟨0, 1, 1, false⟩)) ⟨[3], 0⟩).2
      ⟨0, 1, 1, false⟩ [3] ⟨[3], 0⟩ rfl rfl rfl).1
  · exact ((file_data_property_behaviour (fun _ => none)
      (SgaFile.mk [] none .STORE false () (some ⟨0, 1, 1, false⟩)) ⟨[3], 0⟩).2
      ⟨0, 1, 1, false⟩ [3] ⟨[3], 0⟩ rfl rfl rfl).2 (fun _ => some []) ⟨[], 9⟩

/-- C3 (evaluation of the code at the failing input): the header-MD5
helper that V5 `ArchiveSerializer.read` attaches is seeded with the
*file*-MD5 salt `E01519D6-…`, not the header-MD5 salt `DFC9AF62-…` the
claim (and the V2 driver, and the declared-but-unused
`HEADER_MD5_EIGEN` class constant) prescribe; its window does cover
`header_pos .. header_pos + header_size` as claimed. -/
theorem v5_header_md5_helper_salted_with_file_eigen :
    (v5BuildChecksumHelpers (List.replicate 16 1) (List.replicate 16 2)
          ⟨180, 209, 389, none⟩).2
        = ⟨some (List.replicate 16 2), 180, some 209, some FILE_MD5_EIGEN⟩
    ∧ FILE_MD5_EIGEN ≠ HEADER_MD5_EIGEN := by
  exact ⟨rfl, by decide⟩

/-- C4 (evaluation of the code at the failing input): on a name table of
two NUL-terminated names — a 300-byte name that straddles the 256-byte
chunk boundary followed by `"b"` — the reader returns the keys 256 and
557 instead of the true byte offsets 0 and 301: the NUL-free first chunk
adds its whole length to `offset`, and the name's bytes are counted again
when the name completes. -/
theorem name_table_offsets_wrong_after_nul_free_chunk :
    read_toc_names_as_count
        ⟨List.replicate 300 97 ++ [0, 98, 0], 0⟩ (0, 2) 0 256
      = .ok ([(256, List.replicate 300 97), (557, [98])],
          ⟨List.replicate 300 97 ++ [0, 98, 0], 303⟩)
    ∧ (256 : Nat) ≠ 0 ∧ (557 : Nat) ≠ 300 + 1 := by
  exact ⟨by decide, by decide, by decide⟩

/-- C6 (evaluation of the code at the failing input): the archive-name
decode of every version driver calls `rstrip` with the *empty* byte string,
which strips nothing, so a NUL-padded 128-byte name field decodes with all
its trailing NUL code units intact — here a name `"A"` padded to field
width decodes to 64 code units instead of the right-trimmed `[65]` that
the claim (and the drive-name decode, which does `rstrip(b"\x00")`)
prescribe. -/
theorem archive_name_padding_not_trimmed :
    v2DecodeArchiveName (65 :: List.replicate 127 0) = 65 :: List.replicate 63 0
    ∧ v5DecodeArchiveName (65 :: List.replicate 127 0) = 65 :: List.replicate 63 0
    ∧ v7DecodeArchiveName (65 :: List.replicate 127 0) = 65 :: List.replicate 63 0
    ∧ v9DecodeArchiveName (65 :: List.replicate 127 0) = 65 :: List.replicate 63 0
    ∧ specDecodeArchiveName (65 :: List.replicate 127 0) = [65]
    ∧ (65 :: List.replicate 63 0 : List Nat) ≠ [65] := by
  refine ⟨by decide, by decide, by decide, by decide, by decide, by decide⟩

/-- C7 (evaluation of the code at the failing input): packing a V5
`FileDef` and unpacking the written bytes permutes the storage-type,
modified and verification fields, because `pack`'s argument order
(…, storage, modified, verification) differs from the order `unpack` reads
(…, modified, verification, storage): a `STREAM_COMPRESS` file stamped at
epoch second 0 comes back as a `STORE` file stamped at epoch second 2. -/
theorem v5_filedef_roundtrip_not_identity :
    (FileDefSerializer.packV5 ⟨0, 0, 0, 0, .STREAM_COMPRESS, 0, 0⟩).bind
        (fun bs => (FileDefSerializer.unpackV5 ⟨bs, 0⟩).map (fun p => p.1))
      = .ok ⟨0, 0, 0, 0, .STORE, 2, 0⟩
    ∧ (⟨0, 0, 0, 0, .STORE, 2, 0⟩ : FileDefV5)
        ≠ ⟨0, 0, 0, 0, .STREAM_COMPRESS, 0, 0⟩ := by
  exact ⟨by decide, by decide⟩

/-- If the last-wins parent map yields a parent, that parent is a folder
whose slice contains the child. -/
theorem foldersParentMapAux_eq_some (proj : AsmFolder → List Nat)
    (l : List AsmFolder) :
    ∀ (i0 j : Nat) (r : ParentRef),
      foldersParentMapAux proj i0 l j = some r →
      ∃ k, k < l.length ∧ r = .folderRef (i0 + k) ∧
        j ∈ proj (l.getD k default) := by
  induction l with
  | nil => intro i0 j r h; simp [foldersParentMapAux] at h
  | cons f rest ih =>
    intro i0 j r h
    unfold foldersParentMapAux at h
    split at h
    next r' heq =>
      obtain ⟨k, hk, hrk, hjk⟩ := ih (i0 + 1) j r' heq
      injection h with h
      subst h
      refine ⟨k + 1, by simpa using Nat.succ_lt_succ hk, by rw [hrk]; ring_nf, ?_⟩
      rw [List.getD_cons_succ]
      exact hjk
    next heq =>
      split at h
      next hc =>
        injection h with h
        subst h
        refine ⟨0, by simp, by simp, ?_⟩
        rw [List.getD_cons_zero]
        simpa using hc
      next hc => exact absurd h (by simp)

/-- If some folder's slice contains the child, the last-wins parent map
yields a parent for it. -/
theorem foldersParentMapAux_isSome_of_mem (proj : AsmFolder → List Nat)
    (l : List AsmFolder) :
    ∀ (i0 j k : Nat), k < l.length → j ∈ proj (l.getD k default) →
      ∃ r, foldersParentMapAux proj i0 l j = some r := by
  induction l with
  | nil => intro i0 j k hk; exact absurd hk (by simp)
  | cons f rest ih =>
    intro i0 j k hk hmem
    unfold foldersParentMapAux
    cases heq : foldersParentMapAux proj (i0 + 1) rest j with
    | some r' => exact ⟨r', rfl⟩
    | none =>
      cases k with
      | zero =>
        rw [List.getD_cons_zero] at hmem
        have hc : (proj f).contains j = true := by simpa using hmem
        exact ⟨.folderRef i0, by simp [heq, hc, hmem]⟩
      | succ k' =>
        rw [List.getD_cons_succ] at hmem
        obtain ⟨r, hr⟩ := ih (i0 + 1) j k' (by simpa using hk) hmem
        rw [heq] at hr
        exact absurd hr (by simp)

/-- C5: in an assembled drive bundle whose folder child-ranges are pairwise
disjoint and whose file ranges are pairwise disjoint (the tree invariant
the specification states for decoded archives), every folder and every
file yielded by `walk()` has a non-`None` parent and its parent chain
terminates at the drive. -/
theorem walk_parent_chains_terminate_at_drive {μ : Type}
    (b : AsmDriveBundle μ)
    (hdisjSub : ∀ k1, k1 < b.folders.length → ∀ k2, k2 < b.folders.length →
      k1 ≠ k2 → ∀ j ∈ (b.folders.getD k1 default).subIdx,
        j ∉ (b.folders.getD k2 default).subIdx)
    (hdisjFile : ∀ k1, k1 < b.folders.length → ∀ k2, k2 < b.folders.length →
      k1 ≠ k2 → ∀ j ∈ (b.folders.getD k1 default).fileIdx,
        j ∉ (b.folders.getD k2 default).fileIdx) :
    (∀ j, ReachedFolder b j → FolderChain b j)
    ∧ (∀ j, ReachedFile b j → FileChain b j) := by
  have hlen : ∀ i j, j ∈ (b.folders.getD i default).subIdx ∨
      j ∈ (b.folders.getD i default).fileIdx → i < b.folders.length := by
    intro i j h
    by_contra hcon
    have : b.folders.getD i default = default := List.getD_eq_default _ _ (by omega)
    rcases h with h | h <;> rw [this] at h <;> exact absurd h (by simp [default])
  have hfold : ∀ j, ReachedFolder b j → FolderChain b j := by
    intro j hj
    induction hj with
    | fromDrive hmem =>
      refine FolderChain.toDrive ?_
      unfold AsmDriveBundle.folderParent
      rw [if_pos (by simpa using hmem)]
    | fromFolder hi hmem ih =>
      rename_i i j'
      by_cases hdj : j' ∈ b.drive.subIdx
      · refine FolderChain.toDrive ?_
        unfold AsmDriveBundle.folderParent
        rw [if_pos (by simpa using hdj)]
      · have hilen : i < b.folders.length := hlen i j' (Or.inl hmem)
        obtain ⟨r, hr⟩ := foldersParentMapAux_isSome_of_mem (fun f => f.subIdx)
          b.folders 0 j' i hilen hmem
        obtain ⟨k, hk, hrk, hjk⟩ := foldersParentMapAux_eq_some (fun f => f.subIdx)
          b.folders 0 j' r hr
        have hki : k = i := by
          by_contra hne
          exact hdisjSub k hk i hilen hne j' hjk hmem
        subst hki
        have hpar : b.folderParent j' = some (.folderRef k) := by
          unfold AsmDriveBundle.folderParent
          rw [if_neg (by simpa using hdj), hr, hrk]
          simp
        exact FolderChain.toFolder hpar ih
  refine ⟨hfold, ?_⟩
  intro j hj
  rcases hj with hmem | ⟨i, hi, hmem⟩
  · left
    unfold AsmDriveBundle.fileParent
    rw [if_pos (by simpa using hmem)]
  · by_cases hdj : j ∈ b.drive.fileIdx
    · left
      unfold AsmDriveBundle.fileParent
      rw [if_pos (by simpa using hdj)]
    · right
      have hilen : i < b.folders.length := hlen i j (Or.inr hmem)
      obtain ⟨r, hr⟩ := foldersParentMapAux_isSome_of_mem (fun f => f.fileIdx)
        b.folders 0 j i hilen hmem
      obtain ⟨k, hk, hrk, hjk⟩ := foldersParentMapAux_eq_some (fun f => f.fileIdx)
        b.folders 0 j r hr
      have hki : k = i := by
        by_contra hne
        exact hdisjFile k hk i hilen hne j hjk hmem
      subst hki
      refine ⟨k, ?_, hfold k hi⟩
      unfold AsmDriveBundle.fileParent
      rw [if_neg (by simpa using hdj), hr, hrk]
      simp

/-! #### No checksum validation during `read` -/

/-- Classifying an error does not depend on the result type. -/
theorem isChecksumError_error_eq {α β : Type} (e : Err) :
    isChecksumError (α := α) (.error e) = isChecksumError (α := β) (.error e) := by
  cases e <;> rfl

/-- An error value is not a checksum error exactly when it is not
`md5Mismatch`. -/
theorem isChecksumError_error_false_iff {α : Type} (e : Err) :
    isChecksumError (α := α) (.error e) = false ↔ e ≠ .md5Mismatch := by
  cases e <;> simp [isChecksumError]

/-- Applying the `SM` bind is the underlying match. -/
theorem SM_bind_apply {α β : Type} (m : SM α) (f : α → SM β) (s : ByteStream) :
    (m >>= f) s
      = match m s with
        | .error e => .error e
        | .ok (a, s') => f a s' := rfl

/-- Applying the `SM` pure. -/
theorem SM_pure_apply {α : Type} (a : α) (s : ByteStream) :
    (pure a : SM α) s = .ok (a, s) := rfl

theorem noMd5_pure {α : Type} (a : α) : NoMd5 (pure a) := by
  intro s
  rfl

theorem noMd5_bind {α β : Type} {m : SM α} {f : α → SM β}
    (hm : NoMd5 m) (hf : ∀ a, NoMd5 (f a)) : NoMd5 (m >>= f) := by
  intro s
  rw [SM_bind_apply]
  cases h : m s with
  | error e =>
    have hthis := hm s
    rw [h] at hthis
    exact (isChecksumError_error_false_iff e).mpr
      ((isChecksumError_error_false_iff e).mp hthis)
  | ok a => exact hf a.1 a.2

theorem noMd5_smThrow {α : Type} (e : Err) (h : e ≠ .md5Mismatch) :
    NoMd5 (smThrow (α := α) e) := by
  intro s
  exact (isChecksumError_error_false_iff e).mpr h

theorem noMd5_smRead (n : Nat) : NoMd5 (smRead n) := by
  intro s
  rfl

theorem noMd5_smReadExact (n : Nat) : NoMd5 (smReadExact n) := by
  intro s
  unfold smReadExact
  split
  split <;> rfl

theorem noMd5_smSeek (p : Nat) : NoMd5 (smSeek p) := by
  intro s
  rfl

theorem noMd5_smTell : NoMd5 smTell := by
  intro s
  rfl

theorem noMd5_readUInt (w : Nat) : NoMd5 (readUInt w) := by
  unfold readUInt
  exact noMd5_bind (noMd5_smReadExact w) (fun _ => noMd5_pure _)

theorem noMd5_smLift {α : Type} (x : Except Err α)
    (hx : isChecksumError x = false) : NoMd5 (smLift x) := by
  intro s
  unfold smLift
  cases x with
  | error e =>
    exact (isChecksumError_error_false_iff e).mpr
      ((isChecksumError_error_false_iff e).mp hx)
  | ok a => rfl

theorem noMd5_asciiDecode (b : List Nat) :
    isChecksumError (asciiDecode b) = false := by
  unfold asciiDecode
  split <;> rfl

theorem noMd5_exceptBind {α β : Type} (x : Except Err α)
    (f : α → Except Err β) (hx : isChecksumError x = false)
    (hf : ∀ a, isChecksumError (f a) = false) :
    isChecksumError (x.bind f) = false := by
  cases x with
  | error e =>
    exact (isChecksumError_error_false_iff e).mpr
      ((isChecksumError_error_false_iff e).mp hx)
  | ok a => exact hf a

theorem noMd5_emitNames (parts : List (List Nat)) :
    ∀ (avail : Nat) (names : List (Nat × List Nat)) (offset : Nat),
      isChecksumError (emitNames parts avail names offset) = false := by
  induction parts with
  | nil =>
    intro avail names offset
    cases avail <;> rfl
  | cons p ps ih =>
    intro avail names offset
    cases avail with
    | zero => rfl
    | succ a =>
      unfold emitNames
      cases h : asciiDecode p with
      | error e =>
        have hd := noMd5_asciiDecode p
        rw [h] at hd
        exact (isChecksumError_error_false_iff e).mpr
          ((isChecksumError_error_false_iff e).mp hd)
      | ok d => exact ih a (dictInsert names offset d) (offset + p.length + 1)

theorem noMd5_namesLoop (fuel : Nat) :
    ∀ (bufferSize count : Nat) (names : List (Nat × List Nat))
      (running : List Nat) (offset : Nat) (s : ByteStream),
      isChecksumError (namesLoop fuel bufferSize count names running offset s)
        = false := by
  induction fuel with
  | zero => intro bufferSize count names running offset s; rfl
  | succ n ih =>
    intro bufferSize count names running offset s
    unfold namesLoop
    split
    · split
      · split
        · rfl
        · split
          · dsimp only
            exact noMd5_exceptBind _ _ (noMd5_emitNames _ _ names offset)
              (fun r => ih _ _ _ _ _ _)
          · dsimp only
            split
            · exact ih _ _ _ _ _ _
            · exact noMd5_exceptBind _ _ (noMd5_emitNames _ _ names offset)
                (fun r => ih _ _ _ _ _ _)
    · rfl

theorem noMd5_read_toc_names (tocInfo : Nat × Nat) (headerPos bufferSize : Nat)
    (s : ByteStream) :
    isChecksumError (read_toc_names_as_count s tocInfo headerPos bufferSize)
      = false := by
  unfold read_toc_names_as_count
  exact noMd5_namesLoop _ _ _ _ _ _ _

theorem noMd5_lazyRead (inflate : Inflate) (li : FileLazyInfo)
    (decompressArg : Option Bool) (s : ByteStream) :
    isChecksumError (li.read inflate decompressArg s) = false := by
  unfold FileLazyInfo.read
  simp only [ByteStream.read, ByteStream.seek, ByteStream.tell]
  split
  · split
    · rfl
    · split <;> rfl
  · rfl

theorem noMd5_loadFiles {μ : Type} (inflate : Inflate)
    (files : List (SgaFile μ)) :
    ∀ s, isChecksumError (loadFiles inflate files s) = false := by
  induction files with
  | nil => intro s; rfl
  | cons f rest ih =>
    intro s
    unfold loadFiles
    split
    · rfl
    · next li heq =>
      exact noMd5_exceptBind _ _ (noMd5_lazyRead inflate li none s)
        (fun r => noMd5_exceptBind _ _ (ih r.2) (fun rr => rfl))

theorem noMd5_loadBundles {μ : Type} (inflate : Inflate)
    (bundles : List (AsmDriveBundle μ)) :
    ∀ s, isChecksumError (loadBundles inflate bundles s) = false := by
  induction bundles with
  | nil => intro s; rfl
  | cons b rest ih =>
    intro s
    unfold loadBundles
    exact noMd5_exceptBind _ _ (noMd5_loadFiles inflate b.files s)
      (fun r => noMd5_exceptBind _ _ (ih r.2) (fun rr => rfl))

theorem noMd5_pyGet {α : Type} (l : List α) (i : Int) :
    isChecksumError (pyGet l i) = false := by
  unfold pyGet
  dsimp only
  split <;> split <;> rfl

theorem noMd5_assemble_files {μ : Type} (fileDefs : List FileDef)
    (names : List (Nat × List Nat)) (dataPos : Nat)
    (buildFileMeta : FileDef → μ) (decompress : Bool) :
    isChecksumError
      (assemble_files fileDefs names dataPos buildFileMeta decompress)
        = false := by
  induction fileDefs with
  | nil => rfl
  | cons fd rest ih =>
    unfold assemble_files
    split
    · rfl
    · dsimp only
      exact noMd5_exceptBind _ _ ih (fun files => rfl)

theorem noMd5_buildFolderList (build : FolderDef → Except Err AsmFolder)
    (hb : ∀ fd, isChecksumError (build fd) = false) :
    ∀ l, isChecksumError (buildFolderList build l) = false := by
  intro l
  induction l with
  | nil => rfl
  | cons fd rest ih =>
    unfold buildFolderList
    exact noMd5_exceptBind _ _ (hb fd)
      (fun f => noMd5_exceptBind _ _ ih (fun fs => rfl))

theorem noMd5_assemble_folders (folderDefs : List FolderDef)
    (names : List (Nat × List Nat)) (filesLen fileOffset folderOffset : Nat) :
    isChecksumError
      (assemble_folders folderDefs names filesLen fileOffset folderOffset)
        = false := by
  unfold assemble_folders
  dsimp only
  refine noMd5_buildFolderList _ ?_ _
  intro fd
  cases dictLookup names fd.name_pos <;> rfl

theorem noMd5_assemble_io {μ : Type} (driveDefs : List DriveDef)
    (folderDefs : List FolderDef) (fileDefs : List FileDef)
    (names : List (Nat × List Nat)) (dataPos : Nat)
    (buildFileMeta : FileDef → μ) (decompress : Bool) :
    isChecksumError
      (assemble_io_from_defs driveDefs folderDefs fileDefs names dataPos
        buildFileMeta decompress) = false := by
  induction driveDefs with
  | nil => rfl
  | cons dd rest ih =>
    unfold assemble_io_from_defs
    dsimp only
    refine noMd5_exceptBind _ _ (noMd5_assemble_files _ _ _ _ _)
      (fun localFiles => ?_)
    refine noMd5_exceptBind _ _ (noMd5_assemble_folders _ _ _ _ _)
      (fun localFolders => ?_)
    refine noMd5_exceptBind _ _ (noMd5_pyGet _ _) (fun driveFolder => ?_)
    exact noMd5_exceptBind _ _ ih (fun bundles => rfl)

theorem noMd5_INT2STORAGE (v : Nat) : isChecksumError (INT2STORAGE v) = false := by
  unfold INT2STORAGE
  split
  · rfl
  · split
    · rfl
    · split <;> rfl

theorem noMd5_tocUnpackV2 : NoMd5 TocHeaderSerializer.unpackV2 := by
  unfold TocHeaderSerializer.unpackV2
  refine noMd5_bind (noMd5_readUInt 4) fun _ => ?_
  refine noMd5_bind (noMd5_readUInt 2) fun _ => ?_
  refine noMd5_bind (noMd5_readUInt 4) fun _ => ?_
  refine noMd5_bind (noMd5_readUInt 2) fun _ => ?_
  refine noMd5_bind (noMd5_readUInt 4) fun _ => ?_
  refine noMd5_bind (noMd5_readUInt 2) fun _ => ?_
  refine noMd5_bind (noMd5_readUInt 4) fun _ => ?_
  exact noMd5_bind (noMd5_readUInt 2) fun _ => noMd5_pure _

theorem noMd5_driveUnpackV2 : NoMd5 DriveDefSerializer.unpackV2 := by
  unfold DriveDefSerializer.unpackV2
  refine noMd5_bind (noMd5_smReadExact 64) fun _ => ?_
  refine noMd5_bind (noMd5_smReadExact 64) fun _ => ?_
  refine noMd5_bind (noMd5_readUInt 2) fun _ => ?_
  refine noMd5_bind (noMd5_readUInt 2) fun _ => ?_
  refine noMd5_bind (noMd5_readUInt 2) fun _ => ?_
  refine noMd5_bind (noMd5_readUInt 2) fun _ => ?_
  refine noMd5_bind (noMd5_readUInt 2) fun _ => ?_
  refine noMd5_bind (noMd5_smLift _ (noMd5_asciiDecode _)) fun _ => ?_
  exact noMd5_bind (noMd5_smLift _ (noMd5_asciiDecode _)) fun _ => noMd5_pure _

theorem noMd5_folderUnpackV2 : NoMd5 FolderDefSerializer.unpackV2 := by
  unfold FolderDefSerializer.unpackV2
  refine noMd5_bind (noMd5_readUInt 4) fun _ => ?_
  refine noMd5_bind (noMd5_readUInt 2) fun _ => ?_
  refine noMd5_bind (noMd5_readUInt 2) fun _ => ?_
  refine noMd5_bind (noMd5_readUInt 2) fun _ => ?_
  exact noMd5_bind (noMd5_readUInt 2) fun _ => noMd5_pure _

theorem noMd5_fileUnpackV2 : NoMd5 FileDefSerializer.unpackV2 := by
  unfold FileDefSerializer.unpackV2
  refine noMd5_bind (noMd5_readUInt 4) fun _ => ?_
  refine noMd5_bind (noMd5_readUInt 4) fun v => ?_
  refine noMd5_bind (noMd5_readUInt 4) fun _ => ?_
  refine noMd5_bind (noMd5_readUInt 4) fun _ => ?_
  refine noMd5_bind (noMd5_readUInt 4) fun _ => ?_
  exact noMd5_bind (noMd5_smLift _ (noMd5_INT2STORAGE v)) fun _ => noMd5_pure _

theorem noMd5_headerUnpackV2 : NoMd5 ArchiveHeaderSerializer.unpackV2 := by
  unfold ArchiveHeaderSerializer.unpackV2
  refine noMd5_bind (noMd5_smReadExact 16) fun _ => ?_
  refine noMd5_bind (noMd5_smReadExact 128) fun _ => ?_
  refine noMd5_bind (noMd5_smReadExact 16) fun _ => ?_
  refine noMd5_bind (noMd5_readUInt 4) fun _ => ?_
  refine noMd5_bind (noMd5_readUInt 4) fun _ => ?_
  exact noMd5_bind noMd5_smTell fun _ => noMd5_pure _

theorem noMd5_readMagicWord : NoMd5 readMagicWord := by
  unfold readMagicWord
  refine noMd5_bind (noMd5_smRead 8) fun b => ?_
  split
  · exact noMd5_pure _
  · exact noMd5_smThrow _ (by intro h; cases h)

theorem noMd5_versionUnpack : NoMd5 versionUnpack := by
  unfold versionUnpack
  refine noMd5_bind (noMd5_readUInt 2) fun _ => ?_
  exact noMd5_bind (noMd5_readUInt 2) fun _ => noMd5_pure _

theorem noMd5_smRepeat {α : Type} (m : SM α) (hm : NoMd5 m) :
    ∀ n, NoMd5 (smRepeat m n) := by
  intro n
  induction n with
  | zero => exact noMd5_pure _
  | succ k ih =>
    unfold smRepeat
    refine noMd5_bind hm fun _ => ?_
    exact noMd5_bind ih fun _ => noMd5_pure _

theorem noMd5_unpackHelper {α : Type} (m : SM α) (hm : NoMd5 m)
    (tocInfo : Nat × Nat) (headerPos : Nat) :
    NoMd5 (unpackHelper m tocInfo headerPos) := by
  unfold unpackHelper
  exact noMd5_bind (noMd5_smSeek _) fun _ => noMd5_smRepeat m hm _

theorem noMd5_checkVersion (streamVersion expected : Nat × Nat) :
    NoMd5 (checkVersion streamVersion expected) := by
  unfold checkVersion
  split
  · exact noMd5_smThrow _ (by intro h; cases h)
  · exact noMd5_pure _

theorem noMd5_maybeLoad (inflate : Inflate) (lazy : Bool)
    (bundles : List (AsmDriveBundle Unit)) :
    NoMd5 (maybeLoad inflate lazy bundles) := by
  unfold maybeLoad
  split
  · exact noMd5_pure _
  · exact fun s => noMd5_loadBundles inflate bundles s

/-- V2 `read` can fail in many ways, but never with the checksum-mismatch
error: no stage of the pipeline calls `Md5ChecksumHelper.validate`. -/
theorem noMd5_v2Read (inflate : Inflate) (lazy decompress : Bool) :
    NoMd5 (v2Read inflate lazy decompress) := by
  unfold v2Read
  refine noMd5_bind noMd5_readMagicWord fun _ => ?_
  refine noMd5_bind noMd5_versionUnpack fun v => ?_
  refine noMd5_bind (noMd5_checkVersion v (2, 0)) fun _ => ?_
  refine noMd5_bind noMd5_headerUnpackV2 fun header => ?_
  refine noMd5_bind noMd5_tocUnpackV2 fun toc => ?_
  refine noMd5_bind (noMd5_unpackHelper _ noMd5_driveUnpackV2 _ _) fun _ => ?_
  refine noMd5_bind (noMd5_unpackHelper _ noMd5_folderUnpackV2 _ _) fun _ => ?_
  refine noMd5_bind (noMd5_unpackHelper _ noMd5_fileUnpackV2 _ _) fun _ => ?_
  refine noMd5_bind (fun s => noMd5_read_toc_names _ _ _ s) fun names => ?_
  refine noMd5_bind (noMd5_smLift _ (noMd5_assemble_io _ _ _ _ _ _ _))
    fun bundles => ?_
  refine noMd5_bind (noMd5_maybeLoad inflate lazy bundles) fun bundles2 => ?_
  exact noMd5_pure _

/-- C9: the V2 reader never performs checksum validation — for every
stream (in particular streams whose stored digests match nothing) the
result is never the `MD5MismatchError` that `Md5ChecksumHelper.validate`
raises — and on the concrete well-formed archive with garbage digests the
read succeeds, returning the payload and attaching helpers that merely
carry the stored digests (with their windows and salts) for later opt-in
validation. -/
theorem v2Read_no_checksum_validation :
    (∀ (inflate : Inflate) (lazy decompress : Bool) (s : ByteStream),
      isChecksumError (v2Read inflate lazy decompress s) = false)
    ∧ v2Read (fun _ => none) false true ⟨v2SampleArchive, 0⟩
        = .ok (v2SampleDecoded, ⟨v2SampleArchive, 394⟩) := by
  refine ⟨fun inflate lazy decompress s => noMd5_v2Read inflate lazy decompress s, ?_⟩
  have h1 : readMagicWord ⟨v2SampleArchive, 0⟩
      = .ok ((), ⟨v2SampleArchive, 8⟩) := by decide
  have h2 : versionUnpack ⟨v2SampleArchive, 8⟩
      = .ok ((2, 0), ⟨v2SampleArchive, 12⟩) := by decide
  have h3 : checkVersion (2, 0) (2, 0) ⟨v2SampleArchive, 12⟩
      = .ok ((), ⟨v2SampleArchive, 12⟩) := by decide
  have h4 : ArchiveHeaderSerializer.unpackV2 ⟨v2SampleArchive, 12⟩
      = .ok (⟨List.replicate 64 0, ⟨180, 209, 389, none⟩,
          List.replicate 16 1, List.replicate 16 2⟩, ⟨v2SampleArchive, 180⟩) := by
    decide
  have h5 : TocHeaderSerializer.unpackV2 ⟨v2SampleArchive, 180⟩
      = .ok (⟨(24, 1), (162, 1), (174, 1), (194, 2)⟩, ⟨v2SampleArchive, 204⟩) := by
    decide
  have h6 : unpackHelper DriveDefSerializer.unpackV2 (24, 1) 180
        ⟨v2SampleArchive, 204⟩
      = .ok ([⟨asciiBytes "data", asciiBytes "test", 0, (0, 1), (0, 1)⟩],
          ⟨v2SampleArchive, 342⟩) := by decide
  have h7 : unpackHelper FolderDefSerializer.unpackV2 (162, 1) 180
        ⟨v2SampleArchive, 342⟩
      = .ok ([⟨0, (1, 1), (0, 1)⟩], ⟨v2SampleArchive, 354⟩) := by decide
  have h8 : unpackHelper FileDefSerializer.unpackV2 (174, 1) 180
        ⟨v2SampleArchive, 354⟩
      = .ok ([⟨5, 0, 5, 5, .STORE⟩], ⟨v2SampleArchive, 374⟩) := by decide
  have h9 : read_toc_names_as_count ⟨v2SampleArchive, 374⟩ (194, 2) 180 256
      = .ok ([(0, asciiBytes "root"), (5, asciiBytes "hello.txt")],
          ⟨v2SampleArchive, 394⟩) := by decide
  have h10 : assemble_io_from_defs
        [⟨asciiBytes "data", asciiBytes "test", 0, (0, 1), (0, 1)⟩]
        [⟨0, (1, 1), (0, 1)⟩] [⟨5, 0, 5, 5, .STORE⟩]
        [(0, asciiBytes "root"), (5, asciiBytes "hello.txt")] 389
        (fun _ => ()) true
      = .ok [⟨⟨asciiBytes "data", asciiBytes "test", [], [0]⟩,
          [⟨asciiBytes "root", [], [0]⟩],
          [⟨asciiBytes "hello.txt", none, .STORE, false, (),
            some ⟨389, 5, 5, true⟩⟩]⟩] := by decide
  have h11 : maybeLoad (fun _ => none) false
        [⟨⟨asciiBytes "data", asciiBytes "test", [], [0]⟩,
          [⟨asciiBytes "root", [], [0]⟩],
          [⟨asciiBytes "hello.txt", none, .STORE, false, (),
            some ⟨389, 5, 5, true⟩⟩]⟩] ⟨v2SampleArchive, 394⟩
      = .ok ([⟨⟨asciiBytes "data", asciiBytes "test", [], [0]⟩,
          [⟨asciiBytes "root", [], [0]⟩],
          [⟨asciiBytes "hello.txt", some (asciiBytes "Hello"), .STORE,
            false, (), none⟩]⟩], ⟨v2SampleArchive, 394⟩) := by decide
  unfold v2Read
  simp only [SM_bind_apply, SM_pure_apply, smLift, h1, h2, h3, h4, h5, h6, h7,
    h8, h9, h10, h11, v2SampleDecoded]

/-- Witness for C5: the concrete assembled bundle; its walked sub-folder
(index 1) and file (index 0) both chain to the drive. -/
theorem walk_parent_chains_witness :
    FolderChain sampleBundle 1 ∧ FileChain sampleBundle 0 := by
  have hsub : ∀ k1, k1 < sampleBundle.folders.length →
      ∀ k2, k2 < sampleBundle.folders.length → k1 ≠ k2 →
      ∀ j ∈ (sampleBundle.folders.getD k1 default).subIdx,
        j ∉ (sampleBundle.folders.getD k2 default).subIdx := by
    intro k1 hk1 k2 hk2 hne j hj
    simp only [sampleBundle, List.length_cons, List.length_nil] at hk1 hk2
    interval_cases k1 <;> interval_cases k2 <;> simp_all [sampleBundle]
  have hfile : ∀ k1, k1 < sampleBundle.folders.length →
      ∀ k2, k2 < sampleBundle.folders.length → k1 ≠ k2 →
      ∀ j ∈ (sampleBundle.folders.getD k1 default).fileIdx,
        j ∉ (sampleBundle.folders.getD k2 default).fileIdx := by
    intro k1 hk1 k2 hk2 hne j hj
    simp only [sampleBundle, List.length_cons, List.length_nil] at hk1 hk2
    interval_cases k1 <;> interval_cases k2 <;> simp_all [sampleBundle]
  have h := walk_parent_chains_terminate_at_drive sampleBundle hsub hfile
  exact ⟨h.1 1 (ReachedFolder.fromDrive (by decide)),
    h.2 0 (Or.inl (by decide))⟩

end SGA
